import Mathlib

/-!
Shallow embedding of `src/app.py` (reward_video): a terminal app running
rewarded-video cycles with interactive outcome resolution, aggregate
counters and an append-only JSON-lines event log.

Modelling conventions:
* stdin is a finite list of tokens (`List String`); the blocking
  `input()` loop of `_prompt_choice` becomes a structurally recursive
  function returning `Option` (`none` = the stream is exhausted while the
  program is still waiting for a valid token).
* every `print(...)` call contributes one `String` to an output list.
* wall-clock timestamps are modelled by an abstract monotone counter.
* filesystem effects of `_log_event` are recorded as a list of `FsOp`
  operations (directory creation, line append).
* the peripheral collaborators (google client import/build, notify-send,
  xdg-open) are modelled by an `Env` of availability flags; the inner
  operation that can raise in Python is an `Except`, and the surrounding
  handler is translated faithfully.
-/

/-- `AppStats` dataclass: the two aggregate counters. -/
structure AppStats where
  shares : Nat
  rejects : Nat
deriving DecidableEq, Repr

/-- One event record as built by `_log_event`: exactly the five fields
of the JSON object, with the timestamp abstracted to a `Nat` tick. -/
structure Event where
  timestamp : Nat
  cycle : Nat
  action : String
  app_id : String
  ad_unit_id : String
deriving DecidableEq, Repr

/-- Filesystem operations performed by `_log_event`, in order. -/
inductive FsOp where
  | mkdirParents : String → FsOp
  | appendEvent : String → Event → FsOp
deriving DecidableEq, Repr

/-- Constructor arguments of `RewardVideoTerminalApp`.  `runs` is an
`Int` because Python allows a non-positive run count. -/
structure Config where
  app_id : String
  ad_unit_id : String
  api_key : String
  runs : Int
  watch_seconds : Nat
  video_url : String
  log_file : String
deriving DecidableEq, Repr

/-- Availability of the peripheral OS / third-party collaborators:
whether `googleapiclient.discovery` imports, whether `build(...)` raises
(and with what message), whether `notify-send` and `xdg-open` exist. -/
structure Env where
  googleModulePresent : Bool
  buildError : Option String
  notifierPresent : Bool
  openerPresent : Bool
deriving DecidableEq, Repr

/-- Whitespace characters stripped by Python `str.strip()`. -/
def isPySpace (c : Char) : Bool :=
  c = ' ' || c = '\t' || c = '\n' || c = '\x0d' || c = '\x0b' || c = '\x0c'

/-- ASCII lower-casing of one character (Python `str.lower()` on the
ASCII tokens this program compares against). -/
def lowerChar (c : Char) : Char :=
  if 'A' ≤ c && c ≤ 'Z' then Char.ofNat (c.toNat + 32) else c

/-- `input(prompt).strip().lower()` normalisation. -/
def normalizeInput (s : String) : String :=
  String.mk ((((s.data.dropWhile isPySpace).reverse.dropWhile isPySpace).reverse).map lowerChar)

/-- Lexicographic code-point comparison of character lists (Python
string ordering). -/
def charListLe : List Char → List Char → Bool
  | [], _ => true
  | _ :: _, [] => false
  | c :: cs, d :: ds => if c = d then charListLe cs ds else decide (c < d)

/-- Python `s <= t` on strings. -/
def strLe (s t : String) : Bool :=
  charListLe s.data t.data

/-- Insertion into a sorted list of strings (for Python `sorted`). -/
def insertSorted (x : String) : List String → List String
  | [] => [x]
  | y :: ys => if strLe x y then x :: y :: ys else y :: insertSorted x ys

/-- Python `sorted` on the allowed-token set. -/
def sortStrings : List String → List String
  | [] => []
  | x :: xs => insertSorted x (sortStrings xs)

/-- The re-prompt error line printed by `_prompt_choice`. -/
def invalidMessage (allowed : List String) : String :=
  "Valeur invalide. Choix attendus: " ++ String.intercalate ", " (sortStrings allowed)

/-- `_prompt_choice`: read tokens until one normalises into `allowed`;
returns the accepted token, the remaining stream, and the lines written
to the terminal (the prompt once per read, plus one error line per
invalid token).  `none` models the loop still waiting when the scripted
stream runs out. -/
def prompt_choice (prompt : String) (allowed : List String) :
    List String → Option (String × List String × List String)
  | [] => none
  | t :: rest =>
    let v := normalizeInput t
    if v ∈ allowed then
      some (v, rest, [prompt])
    else
      match prompt_choice prompt allowed rest with
      | none => none
      | some (a, r, out) => some (a, r, prompt :: invalidMessage allowed :: out)

/-- `ModuleNotFoundError` point of `_load_google_build`. -/
def load_google_build (env : Env) : Except String Unit :=
  if env.googleModulePresent then Except.ok () else Except.error "ModuleNotFoundError"

/-- The `build("admob", ...)` call, which may raise any exception. -/
def build_client (env : Env) : Except String Unit :=
  match env.buildError with
  | none => Except.ok ()
  | some e => Except.error e

/-- `setup_google_sdk`: lines printed; every failure of the collaborator
is caught here and never propagates. -/
def setup_google_sdk (cfg : Config) (env : Env) : List String :=
  match load_google_build env with
  | Except.error _ => ["[INFO] google-api-python-client non installé."]
  | Except.ok _ =>
    if cfg.api_key = "" then
      ["[INFO] GOOGLE_API_KEY absent -> initialisation API ignorée."]
    else
      match build_client env with
      | Except.ok _ => ["[OK] Client API Google AdMob initialisé."]
      | Except.error err => ["[WARN] Initialisation API Google impossible: " ++ err]

/-- The `subprocess.run(["notify-send", ...])` call: raises
`FileNotFoundError` when the notifier binary is absent. -/
def send_notification (env : Env) : Except String Unit :=
  if env.notifierPresent then Except.ok () else Except.error "FileNotFoundError"

/-- `notify`: prints the notification line, then tries `notify-send`;
a missing notifier is swallowed by `except FileNotFoundError: pass`
without printing anything further. -/
def notify (env : Env) (message : String) : List String :=
  ("\n[NOTIFICATION] " ++ message) ::
    (match send_notification env with
     | Except.ok _ => []
     | Except.error _ => [])

/-- The `subprocess.run(["xdg-open", url])` call. -/
def xdg_open (env : Env) (_url : String) : Except String Unit :=
  if env.openerPresent then Except.ok () else Except.error "FileNotFoundError"

/-- `_open_video_if_configured`: nothing when no URL; otherwise the
success info line, or the fallback info line when `xdg-open` is absent
(the `FileNotFoundError` is caught, never propagated). -/
def open_video_if_configured (cfg : Config) (env : Env) : List String :=
  if cfg.video_url = "" then []
  else
    match xdg_open env cfg.video_url with
    | Except.ok _ => ["[INFO] Vidéo ouverte: " ++ cfg.video_url]
    | Except.error _ => ["[INFO] xdg-open indisponible, ouvrez la vidéo manuellement."]

/-- The per-second progress lines of the simulated watch. -/
def progressLines (ws : Nat) : List String :=
  (List.range' 1 ws).map
    (fun s => "  ▶ Vidéo en cours... " ++ toString s ++ "/" ++ toString ws ++ "s")

/-- Everything `play_reward_video` prints before the first prompt:
notification, optional video opening, wait banner, progress ticks and
the closing `print()`. -/
def presenterLines (cfg : Config) (env : Env) : List String :=
  notify env "Lecture d\x27une vidéo reward." ++
  open_video_if_configured cfg env ++
  ["Patientez " ++ toString cfg.watch_seconds ++
    "s pendant le visionnage (ou regardez la vidéo depuis l\x27URL configurée)."] ++
  progressLines cfg.watch_seconds ++ [""]

/-- Prompt string of the watched question. -/
def watchPrompt : String := "La vidéo a été regardée entièrement ? (y/n): "

/-- Prompt string of the final action question. -/
def actionPrompt : String := "Action utilisateur finale (share/reject): "

/-- Allowed tokens of the watched prompt (`{"y", "n"}`). -/
def yesNo : List String := ["y", "n"]

/-- Allowed tokens of the action prompt (`{"share", "reject"}`). -/
def shareReject : List String := ["share", "reject"]

/-- `play_reward_video`: presenter output, then the watched prompt;
`"n"` short-circuits to `"reject"`, otherwise the action prompt decides.
Returns the outcome token, the remaining stream and the printed lines. -/
def play_reward_video (cfg : Config) (env : Env) (stream : List String) :
    Option (String × List String × List String) :=
  match prompt_choice watchPrompt yesNo stream with
  | none => none
  | some (watched, rest, out1) =>
    if watched = "n" then
      some ("reject", rest, presenterLines cfg env ++ out1)
    else
      match prompt_choice actionPrompt shareReject rest with
      | none => none
      | some (a, rest2, out2) =>
        some (a, rest2, presenterLines cfg env ++ out1 ++ out2)

/-- The `"✅ SHARE enregistré."` / `"❌ REJECT enregistré."` line. -/
def resultLine (action : String) : String :=
  if action = "share" then "✅ SHARE enregistré." else "❌ REJECT enregistré."

/-- The running-totals line printed after each cycle. -/
def countersLine (st : AppStats) : String :=
  "Compteurs => share: " ++ toString st.shares ++ " | reject: " ++ toString st.rejects

/-- The `"\nCycle i/runs"` banner. -/
def cycleBanner (index : Nat) (runs : Int) : String :=
  "\nCycle " ++ toString index ++ "/" ++ toString runs

/-- Stats update of `run`: `share` increments `shares`, anything else
increments `rejects`. -/
def updateStats (st : AppStats) (action : String) : AppStats :=
  if action = "share" then
    { shares := st.shares + 1, rejects := st.rejects }
  else
    { shares := st.shares, rejects := st.rejects + 1 }

/-- The filesystem operations of one `_log_event` call: create missing
parents of the destination, then append the record. -/
def logEventOps (cfg : Config) (ev : Event) : List FsOp :=
  [FsOp.mkdirParents cfg.log_file, FsOp.appendEvent cfg.log_file ev]

/-- Mutable state threaded through `run`: counters, the event records
written so far, the filesystem operations performed, the unread part of
stdin, the abstract clock, and everything printed so far. -/
structure RunState where
  stats : AppStats
  events : List Event
  fsOps : List FsOp
  stream : List String
  clock : Nat
  output : List String
deriving DecidableEq, Repr

/-- One iteration of the `for index in range(1, runs + 1)` loop:
banner, `play_reward_video`, `_log_event`, stats update, per-cycle
prints.  `none` when the scripted input runs out mid-prompt. -/
def doCycle (cfg : Config) (env : Env) (index : Nat) (s : RunState) : Option RunState :=
  match play_reward_video cfg env s.stream with
  | none => none
  | some (action, rest, pout) =>
    let ev : Event :=
      { timestamp := s.clock, cycle := index, action := action,
        app_id := cfg.app_id, ad_unit_id := cfg.ad_unit_id }
    some
      { stats := updateStats s.stats action
        events := s.events ++ [ev]
        fsOps := s.fsOps ++ logEventOps cfg ev
        stream := rest
        clock := s.clock + 1
        output := s.output ++ cycleBanner index cfg.runs :: pout ++
          [resultLine action, countersLine (updateStats s.stats action)] }

/-- The cycle loop over a list of 1-based indices. -/
def runLoop (cfg : Config) (env : Env) : List Nat → RunState → Option RunState
  | [], s => some s
  | i :: is, s =>
    match doCycle cfg env i s with
    | none => none
    | some s1 => runLoop cfg env is s1

/-- The startup banner printed at the top of `run` (empty identifiers
display as `NON CONFIGURÉ`). -/
def headerLines (cfg : Config) : List String :=
  ["=== Reward Video Terminal App (AdMob) ===",
   "App ID      : " ++ (if cfg.app_id = "" then "NON CONFIGURÉ" else cfg.app_id),
   "Ad Unit ID  : " ++ (if cfg.ad_unit_id = "" then "NON CONFIGURÉ" else cfg.ad_unit_id),
   "Event log   : " ++ cfg.log_file,
   "----------------------------------------"]

/-- Everything `run` prints before the first cycle: the banner plus the
`setup_google_sdk` diagnostics. -/
def startupOutput (cfg : Config) (env : Env) : List String :=
  headerLines cfg ++ setup_google_sdk cfg env

/-- The final-summary block printed after the loop. -/
def finalSummary (st : AppStats) : List String :=
  ["\n=== Résultat final ===",
   "Nombre de share : " ++ toString st.shares,
   "Nombre de reject: " ++ toString st.rejects]

/-- The initial state of `run`. -/
def initState (cfg : Config) (env : Env) (stream : List String) : RunState :=
  { stats := { shares := 0, rejects := 0 }
    events := []
    fsOps := []
    stream := stream
    clock := 0
    output := startupOutput cfg env }

/-- `RewardVideoTerminalApp.run`: header, SDK bootstrap, `runs` cycles
(Python `range(1, runs + 1)`, empty when `runs ≤ 0`), final summary. -/
def appRun (cfg : Config) (env : Env) (stream : List String) : Option RunState :=
  match runLoop cfg env (List.range' 1 cfg.runs.toNat) (initState cfg env stream) with
  | none => none
  | some s => some { s with output := s.output ++ finalSummary s.stats }

/-- Modelled from the spec: the compliance-validation policy variant of
the run entry point is described in spec sections 4.1, 7 and 8 but its
source is not under `src/` (only the interactive variant is).  Result of
that policy: the run always aborts before cycle 1, naming every missing
identifier, or — with both identifiers present — explaining that a
terminal cannot certify views; no outcome is ever emitted. -/
structure ComplianceRunResult where
  aborted : Bool
  missingNamed : List String
  terminalIncapabilityMessage : Bool
  cyclesExecuted : Nat
  outcome : Option String
deriving DecidableEq, Repr

/-- Modelled from the spec: the names of the missing mandatory
identifiers, in a fixed order. -/
def missing_fields (app_id ad_unit_id : String) : List String :=
  (if app_id = "" then ["app_id"] else []) ++
  (if ad_unit_id = "" then ["ad_unit_id"] else [])

/-- Modelled from the spec: the compliance-validation run.  With a
missing identifier, abort naming exactly the missing ones; otherwise
abort with the terminal-incapability explanation.  Zero cycles execute
and no outcome is produced in either case. -/
def compliance_run (app_id ad_unit_id : String) : ComplianceRunResult :=
  let missing := missing_fields app_id ad_unit_id
  if missing.isEmpty then
    { aborted := true, missingNamed := [], terminalIncapabilityMessage := true,
      cyclesExecuted := 0, outcome := none }
  else
    { aborted := true, missingNamed := missing, terminalIncapabilityMessage := false,
      cyclesExecuted := 0, outcome := none }

/-- States agreeing on everything except the printed output. -/
def SameCore (s t : RunState) : Prop :=
  s.stats = t.stats ∧ s.events = t.events ∧ s.fsOps = t.fsOps ∧
  s.stream = t.stream ∧ s.clock = t.clock

/-- A concrete configuration for evaluating the model. -/
def cfgW : Config :=
  { app_id := "app-1", ad_unit_id := "unit-1", api_key := "", runs := 2,
    watch_seconds := 1, video_url := "", log_file := "events_log.jsonl" }

/-- `cfgW` with a single run. -/
def cfgW1 : Config :=
  { cfgW with runs := 1 }

/-- `cfgW` with a negative run count. -/
def cfgWneg : Config :=
  { cfgW with runs := -2 }

/-- `cfgW` with an empty event-log destination. -/
def cfgWnoLog : Config :=
  { cfgW with runs := 1, log_file := "" }

/-- `cfgW` with an API key and a video URL configured. -/
def cfgWkey : Config :=
  { cfgW with api_key := "k-123", video_url := "https://example.com/v" }

/-- A concrete environment with every collaborator available. -/
def envW : Env :=
  { googleModulePresent := false, buildError := none,
    notifierPresent := true, openerPresent := true }

/-- An environment where every peripheral collaborator is missing or
failing. -/
def envWbroken : Env :=
  { googleModulePresent := true, buildError := some "HttpError 403",
    notifierPresent := false, openerPresent := false }

/-- The final state of a concrete two-cycle run (`["n"]` then
`["y", "share"]`). -/
def stW : RunState :=
  (appRun cfgW envW ["n", "y", "share"]).getD (initState cfgW envW [])

/-- The final state of a concrete one-cycle run. -/
def stW1 : RunState :=
  (appRun cfgW1 envW ["y", "share"]).getD (initState cfgW1 envW [])

/-- The final state of a one-cycle run with an empty log destination. -/
def stWnoLog : RunState :=
  (appRun cfgWnoLog envW ["n"]).getD (initState cfgWnoLog envW [])

/-- The final state of a one-cycle run with every peripheral
collaborator failing. -/
def stWbroken : RunState :=
  (appRun cfgW1 envWbroken ["y", "share"]).getD (initState cfgW1 envWbroken [])

theorem prompt_choice_sound (p : String) (allowed : List String) :
    ∀ s a r out, prompt_choice p allowed s = some (a, r, out) →
      a ∈ allowed ∧ ∀ l ∈ out, l = p ∨ l = invalidMessage allowed := by
  intro s
  induction s with
  | nil =>
    intro a r out h
    simp [prompt_choice] at h
  | cons t rest ih =>
    intro a r out h
    rw [prompt_choice] at h
    split at h
    · rename_i hv
      obtain ⟨ha, hr, hout⟩ := by
        simpa using h
      subst ha; subst hout
      exact ⟨hv, by simp⟩
    · rename_i hv
      cases hpc : prompt_choice p allowed rest with
      | none => rw [hpc] at h; simp at h
      | some x =>
        obtain ⟨a0, r0, out0⟩ := x
        rw [hpc] at h
        obtain ⟨ha, hr, hout⟩ := by simpa using h
        obtain ⟨hmem, hlines⟩ := ih a0 r0 out0 hpc
        subst ha; subst hout
        refine ⟨hmem, ?_⟩
        intro l hl
        simp only [List.mem_cons] at hl
        rcases hl with hl | hl | hl
        · exact Or.inl hl
        · exact Or.inr hl
        · exact hlines l hl

theorem play_out_decomp (cfg : Config) (env : Env) (stream : List String)
    (a : String) (rest out : List String)
    (h : play_reward_video cfg env stream = some (a, rest, out)) :
    ∃ q, out = presenterLines cfg env ++ q := by
  rw [play_reward_video] at h
  cases h1 : prompt_choice watchPrompt yesNo stream with
  | none => rw [h1] at h; simp at h
  | some x =>
    obtain ⟨w, r1, o1⟩ := x
    rw [h1] at h
    by_cases hw : w = "n"
    · simp only [hw, if_pos rfl] at h
      obtain ⟨-, -, hout⟩ := by simpa using h
      exact ⟨o1, hout.symm⟩
    · simp only [if_neg hw] at h
      cases h2 : prompt_choice actionPrompt shareReject r1 with
      | none => rw [h2] at h; simp at h
      | some y =>
        obtain ⟨a2, r2, o2⟩ := y
        rw [h2] at h
        obtain ⟨-, -, hout⟩ := by simpa using h
        exact ⟨o1 ++ o2, hout.symm⟩

theorem play_action_shape (cfg : Config) (env : Env) (stream : List String)
    (a : String) (rest out : List String)
    (h : play_reward_video cfg env stream = some (a, rest, out)) :
    a = "share" ∨ a = "reject" := by
  rw [play_reward_video] at h
  cases h1 : prompt_choice watchPrompt yesNo stream with
  | none => rw [h1] at h; simp at h
  | some x =>
    obtain ⟨w, r1, o1⟩ := x
    rw [h1] at h
    by_cases hw : w = "n"
    · simp only [hw, if_pos rfl] at h
      obtain ⟨ha, -, -⟩ := by simpa using h
      exact Or.inr ha.symm
    · simp only [if_neg hw] at h
      cases h2 : prompt_choice actionPrompt shareReject r1 with
      | none => rw [h2] at h; simp at h
      | some y =>
        obtain ⟨a2, r2, o2⟩ := y
        rw [h2] at h
        obtain ⟨ha, -, -⟩ := by simpa using h
        have hmem := (prompt_choice_sound actionPrompt shareReject r1 a2 r2 o2 h2).1
        subst ha
        simpa [shareReject] using hmem

theorem play_env_irrel (cfg : Config) (env env' : Env) (stream : List String)
    (a : String) (rest out : List String)
    (h : play_reward_video cfg env stream = some (a, rest, out)) :
    ∃ out', play_reward_video cfg env' stream = some (a, rest, out') := by
  rw [play_reward_video] at h
  rw [play_reward_video]
  cases h1 : prompt_choice watchPrompt yesNo stream with
  | none => rw [h1] at h; simp at h
  | some x =>
    obtain ⟨w, r1, o1⟩ := x
    rw [h1] at h
    by_cases hw : w = "n"
    · simp only [hw, if_pos rfl] at h ⊢
      obtain ⟨ha, hr, -⟩ := by simpa using h
      exact ⟨presenterLines cfg env' ++ o1, by simp [ha, hr]⟩
    · simp only [if_neg hw] at h ⊢
      cases h2 : prompt_choice actionPrompt shareReject r1 with
      | none => rw [h2] at h; simp at h
      | some y =>
        obtain ⟨a2, r2, o2⟩ := y
        rw [h2] at h
        obtain ⟨ha, hr, -⟩ := by simpa using h
        exact ⟨presenterLines cfg env' ++ o1 ++ o2, by simp [ha, hr]⟩

theorem doCycle_spec (cfg : Config) (env : Env) (i : Nat) (s s' : RunState)
    (h : doCycle cfg env i s = some s') :
    ∃ a rest pout, play_reward_video cfg env s.stream = some (a, rest, pout) ∧
      s' = { stats := updateStats s.stats a
             events := s.events ++
               [{ timestamp := s.clock, cycle := i, action := a,
                  app_id := cfg.app_id, ad_unit_id := cfg.ad_unit_id }]
             fsOps := s.fsOps ++ logEventOps cfg
               { timestamp := s.clock, cycle := i, action := a,
                 app_id := cfg.app_id, ad_unit_id := cfg.ad_unit_id }
             stream := rest
             clock := s.clock + 1
             output := s.output ++ cycleBanner i cfg.runs :: pout ++
               [resultLine a, countersLine (updateStats s.stats a)] } := by
  rw [doCycle] at h
  cases hp : play_reward_video cfg env s.stream with
  | none => rw [hp] at h; simp at h
  | some x =>
    obtain ⟨a, rest, pout⟩ := x
    rw [hp] at h
    refine ⟨a, rest, pout, rfl, ?_⟩
    simpa using h.symm

theorem runLoop_inv (cfg : Config) (env : Env) (P : RunState → Prop)
    (hstep : ∀ i s s', doCycle cfg env i s = some s' → P s → P s') :
    ∀ idxs s st, runLoop cfg env idxs s = some st → P s → P st := by
  intro idxs
  induction idxs with
  | nil =>
    intro s st h hP
    rw [runLoop] at h
    cases h
    exact hP
  | cons i is ih =>
    intro s st h hP
    rw [runLoop] at h
    cases hd : doCycle cfg env i s with
    | none => rw [hd] at h; simp at h
    | some s1 =>
      rw [hd] at h
      exact ih s1 st h (hstep i s s1 hd hP)

theorem runLoop_sum (cfg : Config) (env : Env) :
    ∀ idxs s st, runLoop cfg env idxs s = some st →
      st.stats.shares + st.stats.rejects =
        s.stats.shares + s.stats.rejects + idxs.length := by
  intro idxs
  induction idxs with
  | nil =>
    intro s st h
    rw [runLoop] at h
    cases h
    simp
  | cons i is ih =>
    intro s st h
    rw [runLoop] at h
    cases hd : doCycle cfg env i s with
    | none => rw [hd] at h; simp at h
    | some s1 =>
      rw [hd] at h
      obtain ⟨a, rest, pout, hp, hs1⟩ := doCycle_spec cfg env i s s1 hd
      have := ih s1 st h
      rw [this, hs1]
      by_cases ha : a = "share" <;> simp [updateStats, ha] <;> omega

theorem runLoop_cycles (cfg : Config) (env : Env) :
    ∀ idxs s st, runLoop cfg env idxs s = some st →
      st.events.map Event.cycle = s.events.map Event.cycle ++ idxs := by
  intro idxs
  induction idxs with
  | nil =>
    intro s st h
    rw [runLoop] at h
    cases h
    simp
  | cons i is ih =>
    intro s st h
    rw [runLoop] at h
    cases hd : doCycle cfg env i s with
    | none => rw [hd] at h; simp at h
    | some s1 =>
      rw [hd] at h
      obtain ⟨a, rest, pout, hp, hs1⟩ := doCycle_spec cfg env i s s1 hd
      rw [ih s1 st h, hs1]
      simp

/-- The log-file operations are exactly one mkdir-then-append pair per
recorded event, in event order. -/
def FsInvariant (cfg : Config) (s : RunState) : Prop :=
  s.fsOps = s.events.flatMap (logEventOps cfg)

theorem doCycle_fsInvariant (cfg : Config) (env : Env) (i : Nat) (s s' : RunState)
    (h : doCycle cfg env i s = some s') (hP : FsInvariant cfg s) :
    FsInvariant cfg s' := by
  obtain ⟨a, rest, pout, hp, hs1⟩ := doCycle_spec cfg env i s s' h
  unfold FsInvariant at hP ⊢
  rw [hs1]
  simp [hP]

/-- The clock counts the events written, and timestamps are exactly the
successive clock values at write time. -/
def ClockInvariant (s : RunState) : Prop :=
  s.clock = s.events.length ∧
  s.events.map Event.timestamp = List.range s.events.length

theorem doCycle_clockInvariant (cfg : Config) (env : Env) (i : Nat) (s s' : RunState)
    (h : doCycle cfg env i s = some s') (hP : ClockInvariant s) :
    ClockInvariant s' := by
  obtain ⟨a, rest, pout, hp, hs1⟩ := doCycle_spec cfg env i s s' h
  obtain ⟨hc, ht⟩ := hP
  unfold ClockInvariant
  rw [hs1]
  constructor
  · simp [hc]
  · simp [List.range_succ, ht, hc]

/-- Every recorded event carries the configured identifiers and one of
the two outcome tokens. -/
def FieldsInvariant (cfg : Config) (s : RunState) : Prop :=
  ∀ e ∈ s.events, e.app_id = cfg.app_id ∧ e.ad_unit_id = cfg.ad_unit_id ∧
    (e.action = "share" ∨ e.action = "reject")

theorem doCycle_fieldsInvariant (cfg : Config) (env : Env) (i : Nat) (s s' : RunState)
    (h : doCycle cfg env i s = some s') (hP : FieldsInvariant cfg s) :
    FieldsInvariant cfg s' := by
  obtain ⟨a, rest, pout, hp, hs1⟩ := doCycle_spec cfg env i s s' h
  intro e he
  rw [hs1] at he
  simp only [List.mem_append, List.mem_singleton] at he
  rcases he with he | he
  · exact hP e he
  · subst he
    exact ⟨rfl, rfl, play_action_shape cfg env s.stream a rest pout hp⟩

/-- The output always extends the startup banner. -/
def OutputPrefixInvariant (cfg : Config) (env : Env) (s : RunState) : Prop :=
  ∃ mid, s.output = startupOutput cfg env ++ mid

theorem doCycle_outputPrefixInvariant (cfg : Config) (env : Env) (i : Nat) (s s' : RunState)
    (h : doCycle cfg env i s = some s') (hP : OutputPrefixInvariant cfg env s) :
    OutputPrefixInvariant cfg env s' := by
  obtain ⟨a, rest, pout, hp, hs1⟩ := doCycle_spec cfg env i s s' h
  obtain ⟨mid, hmid⟩ := hP
  refine ⟨mid ++ cycleBanner i cfg.runs :: pout ++
    [resultLine a, countersLine (updateStats s.stats a)], ?_⟩
  rw [hs1]
  simp [hmid]

theorem doCycle_sameCore (cfg : Config) (env env' : Env) (i : Nat) (s t s' : RunState)
    (hc : SameCore s t) (h : doCycle cfg env i s = some s') :
    ∃ t', doCycle cfg env' i t = some t' ∧ SameCore s' t' := by
  obtain ⟨hst, hev, hfs, hstr, hck⟩ := hc
  obtain ⟨a, rest, pout, hp, hs1⟩ := doCycle_spec cfg env i s s' h
  rw [hstr] at hp
  obtain ⟨pout', hp'⟩ := play_env_irrel cfg env env' t.stream a rest pout hp
  refine ⟨?_, ?_, ?_⟩
  · exact
      { stats := updateStats t.stats a
        events := t.events ++
          [{ timestamp := t.clock, cycle := i, action := a,
             app_id := cfg.app_id, ad_unit_id := cfg.ad_unit_id }]
        fsOps := t.fsOps ++ logEventOps cfg
          { timestamp := t.clock, cycle := i, action := a,
            app_id := cfg.app_id, ad_unit_id := cfg.ad_unit_id }
        stream := rest
        clock := t.clock + 1
        output := t.output ++ cycleBanner i cfg.runs :: pout' ++
          [resultLine a, countersLine (updateStats t.stats a)] }
  · rw [doCycle, hp']
  · rw [hs1]
    exact ⟨by rw [hst], by rw [hev, hck], by rw [hfs, hck], rfl, by rw [hck]⟩

theorem runLoop_sameCore (cfg : Config) (env env' : Env) :
    ∀ idxs s t st, SameCore s t → runLoop cfg env idxs s = some st →
      ∃ tt, runLoop cfg env' idxs t = some tt ∧ SameCore st tt := by
  intro idxs
  induction idxs with
  | nil =>
    intro s t st hc h
    rw [runLoop] at h
    cases h
    exact ⟨t, rfl, hc⟩
  | cons i is ih =>
    intro s t st hc h
    rw [runLoop] at h
    cases hd : doCycle cfg env i s with
    | none => rw [hd] at h; simp at h
    | some s1 =>
      rw [hd] at h
      obtain ⟨t1, ht1, hc1⟩ := doCycle_sameCore cfg env env' i s t s1 hc hd
      obtain ⟨tt, htt, hcc⟩ := ih s1 t1 st hc1 h
      exact ⟨tt, by rw [runLoop, ht1]; exact htt, hcc⟩

theorem appRun_spec (cfg : Config) (env : Env) (stream : List String) (st : RunState)
    (h : appRun cfg env stream = some st) :
    ∃ s, runLoop cfg env (List.range' 1 cfg.runs.toNat) (initState cfg env stream) = some s ∧
      st = { s with output := s.output ++ finalSummary s.stats } := by
  rw [appRun] at h
  cases hl : runLoop cfg env (List.range' 1 cfg.runs.toNat) (initState cfg env stream) with
  | none => rw [hl] at h; simp at h
  | some s =>
    rw [hl] at h
    exact ⟨s, rfl, by simpa using h.symm⟩

/-- C1: under the interactive policy, for every input stream: if the
first accepted answer to the watched prompt is `"n"`, `play_reward_video`
returns the reject outcome without ever issuing the second prompt (the
output is exactly the presenter lines plus the first prompt transcript,
whose lines are only the watched prompt and its re-prompt error — both
distinct from the action prompt — and the stream position is unchanged
past the first prompt); if it is `"y"` and the next accepted answer is
`"share"`, the outcome is `"share"`; if `"reject"`, the outcome is
`"reject"`. -/
theorem interactive_policy_transcript :
    (∀ (cfg : Config) (env : Env) (stream rest out1 : List String),
       prompt_choice watchPrompt yesNo stream = some ("n", rest, out1) →
       play_reward_video cfg env stream =
           some ("reject", rest, presenterLines cfg env ++ out1) ∧
         (∀ l ∈ out1, l = watchPrompt ∨ l = invalidMessage yesNo) ∧
         watchPrompt ≠ actionPrompt ∧ invalidMessage yesNo ≠ actionPrompt) ∧
    (∀ (cfg : Config) (env : Env) (stream rest rest2 out1 out2 : List String),
       prompt_choice watchPrompt yesNo stream = some ("y", rest, out1) →
       prompt_choice actionPrompt shareReject rest = some ("share", rest2, out2) →
       play_reward_video cfg env stream =
         some ("share", rest2, presenterLines cfg env ++ out1 ++ out2)) ∧
    (∀ (cfg : Config) (env : Env) (stream rest rest2 out1 out2 : List String),
       prompt_choice watchPrompt yesNo stream = some ("y", rest, out1) →
       prompt_choice actionPrompt shareReject rest = some ("reject", rest2, out2) →
       play_reward_video cfg env stream =
         some ("reject", rest2, presenterLines cfg env ++ out1 ++ out2)) := by
  refine ⟨?_, ?_, ?_⟩
  · intro cfg env stream rest out1 h1
    refine ⟨?_, (prompt_choice_sound watchPrompt yesNo stream "n" rest out1 h1).2,
      by decide, by decide⟩
    rw [play_reward_video, h1]
    simp
  · intro cfg env stream rest rest2 out1 out2 h1 h2
    rw [play_reward_video, h1]
    simp only [if_neg (by decide : ¬("y" : String) = "n")]
    rw [h2]
  · intro cfg env stream rest rest2 out1 out2 h1 h2
    rw [play_reward_video, h1]
    simp only [if_neg (by decide : ¬("y" : String) = "n")]
    rw [h2]

/-- Witness for C1 at the spec's scripted inputs `["n"]`, `["y",
"share"]` and `["y", "reject"]`. -/
theorem interactive_policy_transcript_witness :
    play_reward_video cfgW envW ["n"] =
        some ("reject", [], presenterLines cfgW envW ++ [watchPrompt]) ∧
    play_reward_video cfgW envW ["y", "share"] =
        some ("share", [], presenterLines cfgW envW ++ [watchPrompt] ++ [actionPrompt]) ∧
    play_reward_video cfgW envW ["y", "reject"] =
        some ("reject", [], presenterLines cfgW envW ++ [watchPrompt] ++ [actionPrompt]) :=
  ⟨(interactive_policy_transcript.1 cfgW envW ["n"] [] [watchPrompt] (by decide)).1,
   interactive_policy_transcript.2.1 cfgW envW ["y", "share"] ["share"] [] [watchPrompt]
     [actionPrompt] (by decide) (by decide),
   interactive_policy_transcript.2.2 cfgW envW ["y", "reject"] ["reject"] [] [watchPrompt]
     [actionPrompt] (by decide) (by decide)⟩

/-- C7: for every interactive prompt, a token outside the accepted set
(after trimming and lower-casing) causes exactly one re-prompt — one
error line plus one repeated prompt — and changes nothing else (the
eventual answer, remaining stream and subsequent transcript are those of
the rest of the input); any number of consecutive invalid tokens is
handled this way; the prompt returns exactly when an accepted token is
entered, with the normalised token, and only ever returns members of the
accepted set (never a silent default).  The loop body is total — it
never crashes; with no more input it simply keeps waiting (`none`). -/
theorem prompt_validation :
    (∀ (p : String) (allowed : List String) (t : String) (rest : List String),
       normalizeInput t ∉ allowed →
       prompt_choice p allowed (t :: rest) =
         (prompt_choice p allowed rest).map
           (fun x => (x.1, x.2.1, p :: invalidMessage allowed :: x.2.2))) ∧
    (∀ (p : String) (allowed : List String) (t : String) (rest : List String),
       normalizeInput t ∈ allowed →
       prompt_choice p allowed (t :: rest) = some (normalizeInput t, rest, [p])) ∧
    (∀ (p : String) (allowed : List String) (s : List String)
       (a : String) (r out : List String),
       prompt_choice p allowed s = some (a, r, out) → a ∈ allowed) := by
  refine ⟨?_, ?_, ?_⟩
  · intro p allowed t rest hv
    rw [prompt_choice]
    simp only [if_neg hv]
    cases hpc : prompt_choice p allowed rest with
    | none => simp
    | some x =>
      obtain ⟨a, r, o⟩ := x
      simp
  · intro p allowed t rest hv
    rw [prompt_choice]
    simp only [if_pos hv]
  · intro p allowed s a r out h
    exact (prompt_choice_sound p allowed s a r out h).1

/-- Witness for C7: two consecutive invalid tokens each add exactly one
re-prompt, and `" ShArE "` is accepted as `"share"`. -/
theorem prompt_validation_witness :
    prompt_choice actionPrompt shareReject ["zz", "x!", " ShArE "] =
        some ("share", [], [actionPrompt, invalidMessage shareReject,
          actionPrompt, invalidMessage shareReject, actionPrompt]) ∧
    prompt_choice actionPrompt shareReject [" ShArE "] = some ("share", [], [actionPrompt]) := by
  constructor
  · rw [prompt_validation.1 actionPrompt shareReject "zz" ["x!", " ShArE "] (by decide),
      prompt_validation.1 actionPrompt shareReject "x!" [" ShArE "] (by decide),
      prompt_validation.2.1 actionPrompt shareReject " ShArE " [] (by decide)]
    decide
  · rw [prompt_validation.2.1 actionPrompt shareReject " ShArE " [] (by decide)]
    decide

/-- C9: `play_reward_video` only ever returns `"share"` or `"reject"`
(and `_prompt_choice` only ever returns a member of its allowed set), so
the `if action == "share" ... else` classification in `run` never meets
an unclassified outcome. -/
theorem play_outcome_classified :
    (∀ (cfg : Config) (env : Env) (stream : List String)
       (a : String) (rest out : List String),
       play_reward_video cfg env stream = some (a, rest, out) →
       a = "share" ∨ a = "reject") ∧
    (∀ (p : String) (allowed : List String) (s : List String)
       (a : String) (r out : List String),
       prompt_choice p allowed s = some (a, r, out) → a ∈ allowed) := by
  refine ⟨?_, ?_⟩
  · intro cfg env stream a rest out h
    exact play_action_shape cfg env stream a rest out h
  · intro p allowed s a r out h
    exact (prompt_choice_sound p allowed s a r out h).1

/-- Witness for C9 at the stream `["y", " REJECT "]`. -/
theorem play_outcome_classified_witness :
    ("reject" : String) = "share" ∨ ("reject" : String) = "reject" :=
  play_outcome_classified.1 cfgW envW ["y", " REJECT "] "reject" []
    (presenterLines cfgW envW ++ [watchPrompt] ++ [actionPrompt]) (by decide)

/-- C2: each completed cycle increments exactly one of the two counters
by exactly one and never decrements either; after any prefix of the run
the counter sum equals the number of cycles completed so far; and a full
run ends with `shares + rejects` equal to the configured run count
(`Int.toNat` because Python runs zero cycles for a non-positive
`runs`). -/
theorem stats_invariant :
    (∀ (cfg : Config) (env : Env) (i : Nat) (s s' : RunState),
       doCycle cfg env i s = some s' →
       (s'.stats.shares = s.stats.shares + 1 ∧ s'.stats.rejects = s.stats.rejects) ∨
       (s'.stats.shares = s.stats.shares ∧ s'.stats.rejects = s.stats.rejects + 1)) ∧
    (∀ (cfg : Config) (env : Env) (idxs : List Nat) (s st : RunState),
       runLoop cfg env idxs s = some st →
       st.stats.shares + st.stats.rejects =
         s.stats.shares + s.stats.rejects + idxs.length) ∧
    (∀ (cfg : Config) (env : Env) (stream : List String) (st : RunState),
       appRun cfg env stream = some st →
       st.stats.shares + st.stats.rejects = cfg.runs.toNat) := by
  refine ⟨?_, ?_, ?_⟩
  · intro cfg env i s s' h
    obtain ⟨a, rest, pout, hp, hs1⟩ := doCycle_spec cfg env i s s' h
    rw [hs1]
    by_cases ha : a = "share"
    · exact Or.inl (by simp [updateStats, ha])
    · exact Or.inr (by simp [updateStats, ha])
  · intro cfg env idxs s st h
    exact runLoop_sum cfg env idxs s st h
  · intro cfg env stream st h
    obtain ⟨s, hl, hst⟩ := appRun_spec cfg env stream st h
    have hsum := runLoop_sum cfg env (List.range' 1 cfg.runs.toNat) (initState cfg env stream) s hl
    rw [hst]
    simpa [initState] using hsum

/-- Witness for C2: the two-cycle run on `["n", "y", "share"]` ends with
`shares + rejects = 2 = runs`. -/
theorem stats_invariant_witness :
    stW.stats.shares + stW.stats.rejects = cfgW.runs.toNat :=
  stats_invariant.2.2 cfgW envW ["n", "y", "share"] stW (by decide)

/-- C4: each loop iteration runs Presenter, then Resolver, then
Recorder, then the stats update and the running-totals print (the cycle
output is the banner, the presenter lines, the prompt transcript, the
result line and the counters line, in that order; the appended record
carries the resolver's outcome); a successful run executes exactly
`runs` cycles with 1-based indices in order, and the final totals are
printed only after all cycle output. -/
theorem orchestrator_sequence :
    (∀ (cfg : Config) (env : Env) (i : Nat) (s s' : RunState),
       doCycle cfg env i s = some s' →
       ∃ a rest promptOut,
         play_reward_video cfg env s.stream =
           some (a, rest, presenterLines cfg env ++ promptOut) ∧
         s' = { stats := updateStats s.stats a
                events := s.events ++
                  [{ timestamp := s.clock, cycle := i, action := a,
                     app_id := cfg.app_id, ad_unit_id := cfg.ad_unit_id }]
                fsOps := s.fsOps ++ logEventOps cfg
                  { timestamp := s.clock, cycle := i, action := a,
                    app_id := cfg.app_id, ad_unit_id := cfg.ad_unit_id }
                stream := rest
                clock := s.clock + 1
                output := s.output ++ cycleBanner i cfg.runs ::
                  (presenterLines cfg env ++ promptOut) ++
                  [resultLine a, countersLine (updateStats s.stats a)] }) ∧
    (∀ (cfg : Config) (env : Env) (stream : List String) (st : RunState),
       appRun cfg env stream = some st →
       st.events.map Event.cycle = List.range' 1 cfg.runs.toNat ∧
       ∃ mid, st.output = startupOutput cfg env ++ mid ++ finalSummary st.stats) := by
  refine ⟨?_, ?_⟩
  · intro cfg env i s s' h
    obtain ⟨a, rest, pout, hp, hs1⟩ := doCycle_spec cfg env i s s' h
    obtain ⟨q, hq⟩ := play_out_decomp cfg env s.stream a rest pout hp
    subst hq
    exact ⟨a, rest, q, hp, hs1⟩
  · intro cfg env stream st h
    obtain ⟨s, hl, hst⟩ := appRun_spec cfg env stream st h
    constructor
    · have := runLoop_cycles cfg env (List.range' 1 cfg.runs.toNat) (initState cfg env stream) s hl
      rw [hst]
      simpa [initState] using this
    · have hpre : OutputPrefixInvariant cfg env s := by
        refine runLoop_inv cfg env (OutputPrefixInvariant cfg env)
          (fun i a b hd hP => doCycle_outputPrefixInvariant cfg env i a b hd hP)
          (List.range' 1 cfg.runs.toNat) (initState cfg env stream) s hl ⟨[], by simp [initState]⟩
      obtain ⟨mid, hmid⟩ := hpre
      refine ⟨mid, ?_⟩
      rw [hst]
      simp [hmid]

/-- Witness for C4 on the concrete two-cycle run. -/
theorem orchestrator_sequence_witness :
    stW.events.map Event.cycle = List.range' 1 cfgW.runs.toNat ∧
    ∃ mid, stW.output = startupOutput cfgW envW ++ mid ++ finalSummary stW.stats :=
  orchestrator_sequence.2 cfgW envW ["n", "y", "share"] stW (by decide)

/-- C5: after a successful run the filesystem trace is exactly one
create-parents-then-append pair per event, in order; there are exactly
`runs` records; record `k` (0-based) carries cycle index `k + 1`
(1-based), the clock value at its write time as timestamp (hence
timestamps are monotone), the configured identifiers, and one of the two
outcome tokens as action (the record layout `Event` has exactly the
five fields `timestamp, cycle, action, app_id, ad_unit_id`; ISO-8601
formatting of the wall clock is abstracted to the tick counter). -/
theorem event_recorder_contract :
    ∀ (cfg : Config) (env : Env) (stream : List String) (st : RunState),
      appRun cfg env stream = some st →
      st.fsOps = st.events.flatMap (logEventOps cfg) ∧
      st.events.length = cfg.runs.toNat ∧
      st.events.map Event.cycle = List.range' 1 cfg.runs.toNat ∧
      st.events.map Event.timestamp = List.range st.events.length ∧
      ∀ e ∈ st.events, e.app_id = cfg.app_id ∧ e.ad_unit_id = cfg.ad_unit_id ∧
        (e.action = "share" ∨ e.action = "reject") := by
  intro cfg env stream st h
  obtain ⟨s, hl, hst⟩ := appRun_spec cfg env stream st h
  have hfs : FsInvariant cfg s :=
    runLoop_inv cfg env (FsInvariant cfg)
      (fun i a b hd hP => doCycle_fsInvariant cfg env i a b hd hP)
      (List.range' 1 cfg.runs.toNat) (initState cfg env stream) s hl (by simp [FsInvariant, initState])
  have hck : ClockInvariant s :=
    runLoop_inv cfg env ClockInvariant
      (fun i a b hd hP => doCycle_clockInvariant cfg env i a b hd hP)
      (List.range' 1 cfg.runs.toNat) (initState cfg env stream) s hl
      (by constructor <;> simp [initState])
  have hfl : FieldsInvariant cfg s :=
    runLoop_inv cfg env (FieldsInvariant cfg)
      (fun i a b hd hP => doCycle_fieldsInvariant cfg env i a b hd hP)
      (List.range' 1 cfg.runs.toNat) (initState cfg env stream) s hl
      (by intro e he; simp [initState] at he)
  have hcy := runLoop_cycles cfg env (List.range' 1 cfg.runs.toNat) (initState cfg env stream) s hl
  have hcy' : s.events.map Event.cycle = List.range' 1 cfg.runs.toNat := by
    simpa [initState] using hcy
  have hlen : s.events.length = cfg.runs.toNat := by
    have := congrArg List.length hcy'
    simpa using this
  rw [hst]
  exact ⟨hfs, hlen, hcy', hck.2, hfl⟩

/-- Witness for C5 on the concrete two-cycle run. -/
theorem event_recorder_contract_witness :
    stW.fsOps = stW.events.flatMap (logEventOps cfgW) ∧
    stW.events.length = cfgW.runs.toNat ∧
    stW.events.map Event.cycle = List.range' 1 cfgW.runs.toNat ∧
    stW.events.map Event.timestamp = List.range stW.events.length ∧
    ∀ e ∈ stW.events, e.app_id = cfgW.app_id ∧ e.ad_unit_id = cfgW.ad_unit_id ∧
      (e.action = "share" ∨ e.action = "reject") :=
  event_recorder_contract cfgW envW ["n", "y", "share"] stW (by decide)

/-- C10: a non-positive configured run count makes `range(1, runs + 1)`
empty, so the run completes normally with zero cycles: no prompt
consumed, no event, no filesystem operation, both counters zero, and
the output is exactly the startup block followed by the final
summary. -/
theorem non_positive_runs :
    ∀ (cfg : Config) (env : Env) (stream : List String), cfg.runs ≤ 0 →
      appRun cfg env stream =
        some { stats := { shares := 0, rejects := 0 }, events := [], fsOps := [],
               stream := stream, clock := 0,
               output := startupOutput cfg env ++
                 finalSummary { shares := 0, rejects := 0 } } := by
  intro cfg env stream h
  have h0 : cfg.runs.toNat = 0 := Int.toNat_of_nonpos h
  rw [appRun, h0]
  simp [runLoop, initState]

/-- Witness for C10 at `runs = -2`. -/
theorem non_positive_runs_witness :
    appRun cfgWneg envW ["y", "share"] =
      some { stats := { shares := 0, rejects := 0 }, events := [], fsOps := [],
             stream := ["y", "share"], clock := 0,
             output := startupOutput cfgWneg envW ++
               finalSummary { shares := 0, rejects := 0 } } :=
  non_positive_runs cfgWneg envW ["y", "share"] (by decide)

/-- C6 counterexample: recording is not gated on a configured event-log
destination.  With an empty `log_file` the cycle still performs the
mkdir-and-append (it does not become a no-op): `run` calls `_log_event`
unconditionally. -/
theorem recording_unconditional_counterexample :
    appRun cfgWnoLog envW ["n"] = some stWnoLog ∧
    stWnoLog.fsOps =
      [FsOp.mkdirParents "",
       FsOp.appendEvent ""
         { timestamp := 0, cycle := 1, action := "reject",
           app_id := "app-1", ad_unit_id := "unit-1" }] ∧
    stWnoLog.fsOps ≠ [] := by
  decide

/-- C6 amended: durable event recording occurs unconditionally — every
cycle appends exactly one record at the configured destination
(default `events_log.jsonl`), whatever that destination is, empty
included; there is no configuration under which recording is a no-op.
In-memory aggregation occurs alongside: the counter sum equals the
number of records. -/
theorem recording_unconditional :
    ∀ (cfg : Config) (env : Env) (stream : List String) (st : RunState),
      appRun cfg env stream = some st →
      st.fsOps = st.events.flatMap (logEventOps cfg) ∧
      st.events.length = cfg.runs.toNat ∧
      st.stats.shares + st.stats.rejects = st.events.length := by
  intro cfg env stream st h
  obtain ⟨s, hl, hst⟩ := appRun_spec cfg env stream st h
  have hfs : FsInvariant cfg s :=
    runLoop_inv cfg env (FsInvariant cfg)
      (fun i a b hd hP => doCycle_fsInvariant cfg env i a b hd hP)
      (List.range' 1 cfg.runs.toNat) (initState cfg env stream) s hl
      (by simp [FsInvariant, initState])
  have hcy := runLoop_cycles cfg env (List.range' 1 cfg.runs.toNat) (initState cfg env stream) s hl
  have hlen : s.events.length = cfg.runs.toNat := by
    have := congrArg List.length hcy
    simpa [initState] using this
  have hsum := runLoop_sum cfg env (List.range' 1 cfg.runs.toNat) (initState cfg env stream) s hl
  rw [hst]
  refine ⟨hfs, hlen, ?_⟩
  have : s.stats.shares + s.stats.rejects = cfg.runs.toNat := by
    simpa [initState] using hsum
  simp [this, hlen]

/-- Witness for the amended C6 at the empty log destination. -/
theorem recording_unconditional_witness :
    stWnoLog.fsOps = stWnoLog.events.flatMap (logEventOps cfgWnoLog) ∧
    stWnoLog.events.length = cfgWnoLog.runs.toNat ∧
    stWnoLog.stats.shares + stWnoLog.stats.rejects = stWnoLog.events.length :=
  recording_unconditional cfgWnoLog envW ["n"] stWnoLog (by decide)

/-- C8 counterexample: the missing-OS-notifier failure is not reported.
`send_notification` fails with `FileNotFoundError`, yet `notify` prints
exactly what it prints on success — the `except FileNotFoundError:
pass` swallows it silently, contradicting "each reported (printed)". -/
theorem notifier_failure_silent_counterexample :
    send_notification envWbroken = Except.error "FileNotFoundError" ∧
    notify envWbroken "Lecture d\x27une vidéo reward." =
      notify envW "Lecture d\x27une vidéo reward." :=
  ⟨rfl, rfl⟩

/-- C8 amended: failures of the peripheral collaborators are never
raised past their origin and never affect cycles, outcomes, counters or
event records (a run's final state is the same modulo printed output
under any collaborator environment).  The missing client library and
the failing client construction are reported with an INFO/WARN line,
and the missing resource-opener with an INFO line; the missing OS
notifier alone is silently ignored (`notify` prints exactly the
notification line whether or not `notify-send` exists). -/
theorem peripheral_failures_nonfatal :
    (∀ (cfg : Config) (b136 : Option String) (np op : Bool),
       setup_google_sdk cfg
         { googleModulePresent := false, buildError := b136,
           notifierPresent := np, openerPresent := op } =
         ["[INFO] google-api-python-client non installé."]) ∧
    (∀ (cfg : Config) (env : Env) (err : String),
       env.googleModulePresent = true → cfg.api_key ≠ "" → env.buildError = some err →
       setup_google_sdk cfg env = ["[WARN] Initialisation API Google impossible: " ++ err]) ∧
    (∀ (env : Env) (msg : String), notify env msg = ["\n[NOTIFICATION] " ++ msg]) ∧
    (∀ (cfg : Config) (env : Env), cfg.video_url ≠ "" → env.openerPresent = false →
       open_video_if_configured cfg env =
         ["[INFO] xdg-open indisponible, ouvrez la vidéo manuellement."]) ∧
    (∀ (cfg : Config) (env env' : Env) (stream : List String) (st : RunState),
       appRun cfg env stream = some st →
       ∃ st', appRun cfg env' stream = some st' ∧ SameCore st st') := by
  refine ⟨?_, ?_, ?_, ?_, ?_⟩
  · intro cfg bopt np op
    simp [setup_google_sdk, load_google_build]
  · intro cfg env err hm hk hb
    simp [setup_google_sdk, load_google_build, build_client, hm, hk, hb]
  · intro env msg
    by_cases hn : env.notifierPresent <;> simp [notify, send_notification, hn]
  · intro cfg env hu ho
    simp [open_video_if_configured, xdg_open, hu, ho]
  · intro cfg env env' stream st h
    obtain ⟨s, hl, hst⟩ := appRun_spec cfg env stream st h
    have hc0 : SameCore (initState cfg env stream) (initState cfg env' stream) :=
      ⟨rfl, rfl, rfl, rfl, rfl⟩
    obtain ⟨tt, htt, hcc⟩ :=
      runLoop_sameCore cfg env env' (List.range' 1 cfg.runs.toNat)
        (initState cfg env stream) (initState cfg env' stream) s hc0 hl
    refine ⟨{ tt with output := tt.output ++ finalSummary tt.stats }, ?_, ?_⟩
    · rw [appRun, htt]
    · obtain ⟨h1, h2, h3, h4, h5⟩ := hcc
      rw [hst]
      exact ⟨h1, h2, h3, h4, h5⟩

/-- Witness for the amended C8: the concrete broken environment — no
client library in one case, failing construction in another, no opener,
no notifier — and the same one-cycle run under the working and the
broken environment. -/
theorem peripheral_failures_nonfatal_witness :
    setup_google_sdk cfgW
      { googleModulePresent := false, buildError := none,
        notifierPresent := true, openerPresent := true } =
      ["[INFO] google-api-python-client non installé."] ∧
    setup_google_sdk cfgWkey envWbroken =
      ["[WARN] Initialisation API Google impossible: HttpError 403"] ∧
    notify envWbroken "Lecture d\x27une vidéo reward." =
      ["\n[NOTIFICATION] Lecture d\x27une vidéo reward."] ∧
    open_video_if_configured cfgWkey envWbroken =
      ["[INFO] xdg-open indisponible, ouvrez la vidéo manuellement."] ∧
    ∃ st', appRun cfgW1 envWbroken ["y", "share"] = some st' ∧ SameCore stW1 st' :=
  ⟨peripheral_failures_nonfatal.1 cfgW none true true,
   peripheral_failures_nonfatal.2.1 cfgWkey envWbroken "HttpError 403" rfl (by decide) rfl,
   peripheral_failures_nonfatal.2.2.1 envWbroken "Lecture d\x27une vidéo reward.",
   peripheral_failures_nonfatal.2.2.2.1 cfgWkey envWbroken (by decide) rfl,
   peripheral_failures_nonfatal.2.2.2.2 cfgW1 envW envWbroken ["y", "share"] stW1 (by decide)⟩

/-- C3 (modelled from the spec: the compliance-validation variant is
not under `src/`): the run always aborts before cycle 1 with zero
cycles executed and no outcome; with both identifiers empty the abort
names both, with exactly one empty it names exactly that one, and with
both present it aborts with the terminal-incapability explanation. -/
theorem compliance_policy_aborts :
    ∀ a u : String,
      (compliance_run a u).aborted = true ∧
      (compliance_run a u).cyclesExecuted = 0 ∧
      (compliance_run a u).outcome = none ∧
      (a = "" → u = "" → (compliance_run a u).missingNamed = ["app_id", "ad_unit_id"]) ∧
      (a = "" → u ≠ "" → (compliance_run a u).missingNamed = ["app_id"]) ∧
      (a ≠ "" → u = "" → (compliance_run a u).missingNamed = ["ad_unit_id"]) ∧
      (a ≠ "" → u ≠ "" → (compliance_run a u).missingNamed = [] ∧
        (compliance_run a u).terminalIncapabilityMessage = true) := by
  intro a u
  by_cases ha : a = "" <;> by_cases hu : u = "" <;>
    simp [compliance_run, missing_fields, ha, hu]

/-- Witness for C3 at the four identifier combinations. -/
theorem compliance_policy_aborts_witness :
    (compliance_run "" "").missingNamed = ["app_id", "ad_unit_id"] ∧
    (compliance_run "" "u-1").missingNamed = ["app_id"] ∧
    (compliance_run "a-1" "").missingNamed = ["ad_unit_id"] ∧
    (compliance_run "a-1" "u-1").terminalIncapabilityMessage = true ∧
    (compliance_run "a-1" "u-1").cyclesExecuted = 0 :=
  ⟨(compliance_policy_aborts "" "").2.2.2.1 rfl rfl,
   (compliance_policy_aborts "" "u-1").2.2.2.2.1 rfl (by decide),
   (compliance_policy_aborts "a-1" "").2.2.2.2.2.1 (by decide) rfl,
   ((compliance_policy_aborts "a-1" "u-1").2.2.2.2.2.2 (by decide) (by decide)).2,
   (compliance_policy_aborts "a-1" "u-1").2.1⟩
